import Mathlib

/-!
Shallow embedding of `src/api/state.rs` of the legba repository: the session
supervision engine (line classification into statistics / findings / raw
output, completion tracking, and the session registry operations).

Lines of worker output are modelled as `List Char`.  The two lazily compiled
regular expressions of the source,

  STATS :  (?m)^.+tasks=(\d+)\s+mem=(.+)\stargets=(\d+)\sattempts=(\d+)\sdone=(\d+)\s\((.+)%\)(\serrors=(\d+))?\sspeed=(.+) reqs/s
  LOOT  :  (?m)^.+\[(.+)\]\s\(([^)]+)\)(\s<(.+)>)?\s(.+)

are embedded as executable backtracking matchers with the regex crate's
leftmost-first (Perl style, greedy prefers longest) semantics.  Since lines
produced by `lines.next_line()` never contain a newline character, the
multiline anchor `^` can only match at position 0, which is how the matchers
are written.  The `\d` and `\s` classes are modelled by their ASCII subsets
(the claims under study only exercise ASCII input).
-/

namespace Legba

/-- Characters counted as whitespace: the ASCII part of Rust's
`char::is_whitespace` and of the regex class `\s`. -/
def isWs (c : Char) : Bool :=
  c == ' ' || c == '\t' || c == '\n' || c == '\r' || c == '\x0b' || c == '\x0c'

/-- Character data of a string literal. -/
def L (s : String) : List Char := s.data

/-- Models Rust `str::trim`: drop whitespace from both ends. -/
def trim (cs : List Char) : List Char :=
  ((cs.dropWhile isWs).reverse.dropWhile isWs).reverse

/-- All ways to split `cs` into a nonempty prefix and the matching suffix,
longest prefix first.  This is the candidate order a greedy `.+` (or `\d+`,
`\s+`, `[^)]+`) explores under leftmost-first regex semantics. -/
def splitsDesc (cs : List Char) : List (List Char × List Char) :=
  (List.range cs.length).map
    (fun k => (cs.take (cs.length - k), cs.drop (cs.length - k)))

/-- Match a literal token at the head of the input, returning the remainder. -/
def stripLit : List Char → List Char → Option (List Char)
  | [], cs => some cs
  | _ :: _, [] => none
  | l :: ls, c :: cs => if l = c then stripLit ls cs else none

/-- One-or-more repetition of a character class, greedy with backtracking:
try the longest admissible prefix first, and for each candidate run the
continuation `k` on the remainder; the first success wins.  The captured
repetition text is paired with the continuation's result. -/
def greedyPlus (cls : Char → Bool) (k : List Char → Option α) (cs : List Char) :
    Option (List Char × α) :=
  (splitsDesc cs).findSome? (fun pr =>
    if pr.1.all cls then (k pr.2).map (fun a => (pr.1, a)) else none)

/-- Dot of the regexes: any character except a newline (no `(?s)` flag). -/
def isDot (c : Char) : Bool := c != '\n'

def tasksTok : List Char := "tasks=".data
def memTok : List Char := "mem=".data
def targetsTok : List Char := "targets=".data
def attemptsTok : List Char := "attempts=".data
def doneTok : List Char := "done=".data
def errorsTok : List Char := "errors=".data
def speedTok : List Char := "speed=".data
def reqsTok : List Char := " reqs/s".data
def pctCloseTok : List Char := "%)".data
def openParenTok : List Char := "(".data
def closeParenTok : List Char := ")".data
def openBracketTok : List Char := "[".data
def closeBracketTok : List Char := "]".data
def ltTok : List Char := "<".data
def gtTok : List Char := ">".data

/-- Tail `(.+) reqs/s` of the statistics regex (anything may follow the
final literal, the pattern is not end-anchored): returns capture 9. -/
def statsTail9 (cs : List Char) : Option (List Char) :=
  (greedyPlus isDot (fun rest => (stripLit reqsTok rest).map (fun _ => ())) cs).map
    (fun pr => pr.1)

/-- Part `\sspeed=(.+) reqs/s` of the statistics regex. -/
def statsSpeedPart (cs : List Char) : Option (List Char) :=
  match cs with
  | c :: r => if isWs c then (stripLit speedTok r).bind statsTail9 else none
  | [] => none

/-- Part `(\serrors=(\d+))?\sspeed=(.+) reqs/s`: the optional group is
greedy, so the engine first tries to consume `\serrors=(\d+)` and only on
failure of the whole remainder falls back to skipping the group.  Returns
(capture 8 if the group matched, capture 9). -/
def statsTail78 (cs : List Char) : Option (Option (List Char) × List Char) :=
  match (match cs with
         | c :: r =>
           if isWs c then
             (stripLit errorsTok r).bind
               (greedyPlus Char.isDigit (fun r2 => statsSpeedPart r2))
           else none
         | [] => none) with
  | some pr => some (some pr.1, pr.2)
  | none => (statsSpeedPart cs).map (fun g9 => (none, g9))

/-- Part `\s\((.+)%\)` of the statistics regex followed by the optional
errors group and the speed tail: returns (capture 6, capture 8?, capture 9). -/
def statsAfterDone (cs : List Char) : Option (List Char × Option (List Char) × List Char) :=
  match cs with
  | c :: r =>
    if isWs c then
      (stripLit openParenTok r).bind
        (greedyPlus isDot (fun r2 => (stripLit pctCloseTok r2).bind statsTail78))
    else none
  | [] => none

/-- Part `\s<tok>(\d+)` of the statistics regex (used for `targets=`,
`attempts=` and `done=`), continuing with `k`. -/
def statsNum (tok : List Char) (k : List Char → Option α) (cs : List Char) :
    Option (List Char × α) :=
  match cs with
  | c :: r => if isWs c then (stripLit tok r).bind (greedyPlus Char.isDigit k) else none
  | [] => none

/-- Raw captured fields of the statistics regex, numbered as in the source
pattern (group 7 is the outer optional `errors` group, represented by the
presence of `g8`). -/
structure RawStats where
  g1 : List Char
  g2 : List Char
  g3 : List Char
  g4 : List Char
  g5 : List Char
  g6 : List Char
  g8 : Option (List Char)
  g9 : List Char
deriving DecidableEq, Repr

/-- Part of the statistics regex starting right after `mem=`:
`(.+)\stargets=(\d+)\sattempts=(\d+)\sdone=(\d+)\s\((.+)%\)...`. -/
def statsStage2 (cs : List Char) :
    Option (List Char × List Char × List Char × List Char ×
            List Char × Option (List Char) × List Char) :=
  greedyPlus isDot
    (fun r =>
      statsNum targetsTok
        (fun r2 =>
          statsNum attemptsTok
            (fun r3 => statsNum doneTok statsAfterDone r3) r2) r) cs

/-- Part of the statistics regex starting right after `tasks=`:
`(\d+)\s+mem=` then `statsStage2`. -/
def statsStage1 (cs : List Char) : Option RawStats :=
  (greedyPlus Char.isDigit
    (fun r =>
      greedyPlus isWs (fun r2 => (stripLit memTok r2).bind statsStage2) r) cs).map
  (fun pr =>
    let rest := pr.2.2
    { g1 := pr.1, g2 := rest.1, g3 := rest.2.1, g4 := rest.2.2.1,
      g5 := rest.2.2.2.1, g6 := rest.2.2.2.2.1,
      g8 := rest.2.2.2.2.2.1, g9 := rest.2.2.2.2.2.2 })

/-- Embeds the source's STATS regex constant: `captures` of
`(?m)^.+tasks=(\d+)\s+mem=(.+)\stargets=(\d+)\sattempts=(\d+)\sdone=(\d+)\s\((.+)%\)(\serrors=(\d+))?\sspeed=(.+) reqs/s`
on a newline-free line.  The anchored `^.+` makes every match start at
position 0 with at least one character before the matched `tasks=`. -/
def statsCaptures (cs : List Char) : Option RawStats :=
  (splitsDesc cs).findSome? (fun pr =>
    if pr.1.all isDot then (stripLit tasksTok pr.2).bind statsStage1 else none)

/-- Tail `\s(.+)` of the loot regex: capture 5 (rest of the line). -/
def lootTail5 (cs : List Char) : Option (List Char) :=
  match cs with
  | c :: r =>
    if isWs c then (greedyPlus isDot (fun _ => some ()) r).map (fun pr => pr.1)
    else none
  | [] => none

/-- Part `(\s<(.+)>)?\s(.+)` of the loot regex: the optional target group is
tried first (greedy), falling back to the bare data tail. -/
def lootTail45 (cs : List Char) : Option (Option (List Char) × List Char) :=
  match (match cs with
         | c :: r =>
           if isWs c then
             (stripLit ltTok r).bind
               (greedyPlus isDot (fun r2 => (stripLit gtTok r2).bind lootTail5))
           else none
         | [] => none) with
  | some pr => some (some pr.1, pr.2)
  | none => (lootTail5 cs).map (fun g5 => (none, g5))

/-- Part of the loot regex starting right after `[`:
`(.+)\]\s\(([^)]+)\)(\s<(.+)>)?\s(.+)`. -/
def lootAfterBracket (cs : List Char) :
    Option (List Char × List Char × Option (List Char) × List Char) :=
  greedyPlus isDot
    (fun r =>
      (stripLit closeBracketTok r).bind (fun r2 =>
        match r2 with
        | c :: r3 =>
          if isWs c then
            (stripLit openParenTok r3).bind
              (greedyPlus (fun ch => ch != ')')
                (fun r4 => (stripLit closeParenTok r4).bind lootTail45))
          else none
        | [] => none)) cs

/-- Embeds the source's LOOT regex constant: `captures` of
`(?m)^.+\[(.+)\]\s\(([^)]+)\)(\s<(.+)>)?\s(.+)` on a newline-free line:
returns (capture 1, capture 2, capture 4?, capture 5). -/
def lootCaptures (cs : List Char) :
    Option (List Char × List Char × Option (List Char) × List Char) :=
  (splitsDesc cs).findSome? (fun pr =>
    if pr.1.all isDot then (stripLit openBracketTok pr.2).bind lootAfterBracket else none)

/-- Numeric value of a list of ASCII digits. -/
def digitsToNat (cs : List Char) : Nat :=
  cs.foldl (fun n c => n * 10 + (c.toNat - 48)) 0

/-- Models Rust `str::parse::<usize>()`: an optional leading `+` sign, then
one or more ASCII digits, with the value bounded by the 64-bit range
(larger inputs fail with an overflow error). -/
def parseUsize (cs : List Char) : Option Nat :=
  let body := match cs with
    | '+' :: r => r
    | r => r
  if body.isEmpty then none
  else if body.all Char.isDigit then
    let v := digitsToNat body
    if v < 2 ^ 64 then some v else none
  else none

/-- Exponent suffix of a decimal float literal: either nothing, or
`(e|E)[+-]?digits`. Returns the signed exponent. -/
def parseExpSuffix (cs : List Char) : Option Int :=
  match cs with
  | [] => some 0
  | c :: r =>
    if c == 'e' || c == 'E' then
      let body := match r with
        | '+' :: r2 => (r2, (1 : Int))
        | '-' :: r2 => (r2, (-1 : Int))
        | r2 => (r2, (1 : Int))
      if body.1.isEmpty then none
      else if body.1.all Char.isDigit then
        some (body.2 * (digitsToNat body.1 : Int))
      else none
    else none

/-- The exact rational `sign * mantissa * 10 ^ (e - fracLen)`, built with a
single normalizing `mkRat` over integer arithmetic. -/
def decToRat (sign : Int) (mantissa : Nat) (fracLen : Nat) (e : Int) : ℚ :=
  let e10 : Int := e - (fracLen : Int)
  if 0 ≤ e10 then mkRat (sign * (mantissa : Int) * (10 : Int) ^ e10.toNat) 1
  else mkRat (sign * (mantissa : Int)) ((10 : Nat) ^ (-e10).toNat)

/-- Models Rust `str::parse::<f32>()` on finite decimal inputs, as an exact
rational: `[+-]? (digits [. digits?] | . digits) [(e|E) [+-]? digits]`, with
at least one digit in the mantissa.  The source's `f32` rounds the value to
the nearest 32-bit float; the rational model is exact, and agrees with the
source on every value the claims exercise (all exactly representable).  The
special spellings `inf`, `infinity` and `NaN`, which Rust accepts but which
have no rational value, are outside the model (no claim exercises them). -/
def parseF32Q (cs : List Char) : Option ℚ :=
  let signed : List Char × Int := match cs with
    | '+' :: r => (r, 1)
    | '-' :: r => (r, -1)
    | r => (r, 1)
  let ipart := signed.1.takeWhile Char.isDigit
  let rest := signed.1.dropWhile Char.isDigit
  match rest with
  | '.' :: r2 =>
    let fpart := r2.takeWhile Char.isDigit
    let rest2 := r2.dropWhile Char.isDigit
    if ipart.isEmpty && fpart.isEmpty then none
    else
      (parseExpSuffix rest2).map (fun e =>
        decToRat signed.2 (digitsToNat (ipart ++ fpart)) fpart.length e)
  | r2 =>
    if ipart.isEmpty then none
    else
      (parseExpSuffix r2).map (fun e => decToRat signed.2 (digitsToNat ipart) 0 e)

/-- Embeds the `Statistics` struct of the source (field for field; `usize`
becomes `Nat`, the `f32` field becomes an exact rational, the `String`
field keeps its character data). -/
structure Statistics where
  tasks : Nat
  memory : List Char
  targets : Nat
  attempts : Nat
  errors : Nat
  done : Nat
  done_percent : ℚ
  reqs_per_sec : Nat
deriving DecidableEq, Repr

/-- Rust `Statistics::default()`: zeroes and the empty string. -/
def statsDefault : Statistics :=
  { tasks := 0, memory := [], targets := 0, attempts := 0,
    errors := 0, done := 0, done_percent := 0, reqs_per_sec := 0 }

/-- Embeds the `Loot` struct of the source. -/
structure Loot where
  found_at : List Char
  plugin : List Char
  target : Option (List Char)
  data : List Char
deriving DecidableEq, Repr

def errTasksMsg : String := "stats.tasks: parse failed"
def errTargetsMsg : String := "stats.targets: parse failed"
def errAttemptsMsg : String := "stats.attempts: parse failed"
def errDoneMsg : String := "stats.done: parse failed"
def errDonePercentMsg : String := "stats.done_percent: parse failed"
def errErrorsMsg : String := "stats.errors: parse failed"
def errReqsPerSecMsg : String := "stats.reqs_per_sec: parse failed"

/-- Embeds the statistics branch of `pipe_reader_to_writer` (lines 76-91 of
the source): each captured field is parsed with `.parse().unwrap()` and
assigned; the optional `errors` capture defaults to 0.  A failing parse is
an unwrap panic, modelled as an error naming the failing field (in the
source the panic aborts the capture task after the preceding fields were
already assigned and poisons the statistics lock; the model collapses this
to the error outcome).  All eight fields of the result come from the
captures alone: the source assigns every field, so the previous statistics
value does not flow into the result. -/
def parseStatsCaps (c : RawStats) : Except String Statistics :=
  match parseUsize c.g1 with
  | none => .error errTasksMsg
  | some tasksV =>
    match parseUsize c.g3 with
    | none => .error errTargetsMsg
    | some targetsV =>
      match parseUsize c.g4 with
      | none => .error errAttemptsMsg
      | some attemptsV =>
        match parseUsize c.g5 with
        | none => .error errDoneMsg
        | some doneV =>
          match parseF32Q c.g6 with
          | none => .error errDonePercentMsg
          | some dpV =>
            match (match c.g8 with
                   | some e => parseUsize e
                   | none => some 0) with
            | none => .error errErrorsMsg
            | some errsV =>
              match parseUsize c.g9 with
              | none => .error errReqsPerSecMsg
              | some rpsV =>
                .ok { tasks := tasksV, memory := c.g2, targets := targetsV,
                      attempts := attemptsV, errors := errsV, done := doneV,
                      done_percent := dpV, reqs_per_sec := rpsV }

/-- The per-session telemetry owned by the two capture loops: the
`statistics`, `loot` and `output` fields of the source's `Wrapper`. -/
structure Telem where
  statistics : Statistics
  loot : List Loot
  output : List (List Char)
deriving DecidableEq, Repr

def telemInit : Telem := { statistics := statsDefault, loot := [], output := [] }

/-- Embeds the loop body of `pipe_reader_to_writer` for one captured line
(after `strip_ansi_escapes::strip_str`, which is the identity on lines
without escape sequences): an all-whitespace line produces no record; a
line matched by the STATS regex overwrites the statistics (or panics on a
bad capture, see `parseStatsCaps`); otherwise a line matched by the LOOT
regex appends a `Loot`; otherwise the trimmed line is appended to the raw
output. -/
def processLineCore (t : Telem) (line : List Char) : Except String Telem :=
  if (trim line).isEmpty then .ok t
  else
    match statsCaptures line with
    | some caps =>
      match parseStatsCaps caps with
      | .ok st => .ok { t with statistics := st }
      | .error e => .error e
    | none =>
      match lootCaptures line with
      | some caps =>
        .ok { t with
              loot := t.loot ++
                [{ found_at := caps.1, plugin := caps.2.1,
                   target := caps.2.2.1, data := caps.2.2.2 }] }
      | none => .ok { t with output := t.output ++ [trim line] }

/-- Embeds the whole `pipe_reader_to_writer` loop on one stream: the lines
arrive in order and are processed one at a time; an unwrap panic kills the
task, so no later line of that stream is processed. -/
def pipe_reader_to_writer (t : Telem) : List (List Char) → Except String Telem
  | [] => .ok t
  | l :: ls =>
    match processLineCore t l with
    | .ok t2 => pipe_reader_to_writer t2 ls
    | .error e => .error e

/-- The statistics value a line produces when it fully matches and parses:
the captures of the STATS regex, all fields parsed successfully. -/
def statsValue (cs : List Char) : Option Statistics :=
  match statsCaptures cs with
  | some caps => (parseStatsCaps caps).toOption
  | none => none

/-- Embeds the `Completion` struct of the source.  The `completed_at`
wall-clock timestamp is outside the model (real time); `exit_code` and
`error` are kept. -/
structure Completion where
  exit_code : Int
  error : Option String
deriving DecidableEq, Repr

/-- Embeds `Completion::with_status`. -/
def Completion.with_status (exit_code : Int) : Completion :=
  { exit_code := exit_code, error := none }

/-- Embeds `Completion::with_error`. -/
def Completion.with_error (e : String) : Completion :=
  { exit_code := -1, error := some e }

/-- Outcome of `child.wait().await` as seen by the completion waiter:
either the process exited (with `code()` possibly `None`, e.g. when killed
by a signal), or the wait itself failed with an error message. -/
inductive WaitResult where
  | exited (code : Option Int)
  | waitErr (msg : String)
deriving DecidableEq, Repr

/-- Embeds the body of the completion-waiter task in `Wrapper::start`
(lines 198-215 of the source): `Ok(code)` records
`Completion::with_status(code.code().unwrap_or(-1))`, `Err(error)` records
`Completion::with_error(error.to_string())`. -/
def completionOf : WaitResult → Completion
  | .exited code => .with_status (code.getD (-1))
  | .waitErr msg => .with_error msg

/-- The two output streams of the child process. -/
inductive StreamTag where
  | stdout
  | stderr
deriving DecidableEq, Repr

/-- The mutable per-session state shared by the three background tasks of
`Wrapper::start`: the telemetry written by the two capture loops, the
write-once completion cell, and a flag recording whether the single
completion-waiter task has already run (a spawned task body executes at
most once). -/
structure Sess where
  telem : Telem
  completed : Option Completion
  waiterDone : Bool
deriving DecidableEq, Repr

def sessInit : Sess := { telem := telemInit, completed := none, waiterDone := false }

/-- An observable event of one session: a line classified by one of the two
capture loops, or the completion waiter observing `child.wait()`. -/
inductive Ev where
  | line (tag : StreamTag) (cs : List Char)
  | procExit (r : WaitResult)

/-- Interleaving step relation of the three concurrent tasks of
`Wrapper::start`.  A capture loop may process its next line at any time:
the source never consults `completed` before appending, so `line` steps are
enabled whether or not completion has been recorded.  The completion waiter
writes `completed` unconditionally, but its task body runs at most once,
which the `waiterDone` flag records. -/
inductive Step : Sess → Ev → Sess → Prop where
  | line (s : Sess) (tag : StreamTag) (cs : List Char) (t2 : Telem) :
      processLineCore s.telem cs = .ok t2 →
      Step s (.line tag cs)
        { telem := t2, completed := s.completed, waiterDone := s.waiterDone }
  | procExit (s : Sess) (r : WaitResult) :
      s.waiterDone = false →
      Step s (.procExit r)
        { telem := s.telem, completed := some (completionOf r), waiterDone := true }

/-- States reachable from the freshly spawned session. -/
inductive Reach : Sess → Prop where
  | init : Reach sessInit
  | step (s s2 : Sess) (ev : Ev) : Reach s → Step s ev s2 → Reach s2

/-- Embeds the identity part of the source's `Wrapper` (the telemetry lives
in `Sess`; `session_id` is modelled by a number in place of a UUID,
`started_at` is outside the model). -/
structure Wrapper where
  session_id : Nat
  process_id : Nat
  client : String
  argv : List String
deriving DecidableEq, Repr

/-- Embeds the source's `State`: the session registry.  The `HashMap` is
modelled as an association list keyed by session id. -/
structure State where
  sessions : List (Nat × Wrapper)
deriving DecidableEq, Repr

/-- Embeds `State::new`. -/
def State.new : State := { sessions := [] }

/-- The POSIX signal used by `Wrapper::stop`. -/
inductive UnixSignal where
  | SIGTERM
deriving DecidableEq, Repr

/-- Embeds `Wrapper::stop`: sends SIGTERM to the recorded process id via
`nix::sys::signal::kill` and returns the dispatch result; it does not wait
for the process to exit.  `kill` models the outcome of signal delivery; the
second component records the signal that was dispatched. -/
def Wrapper.stop (w : Wrapper) (kill : Nat → UnixSignal → Except String Unit) :
    Except String Unit × List (Nat × UnixSignal) :=
  (kill w.process_id .SIGTERM, [(w.process_id, .SIGTERM)])

/-- Embeds `State::start_new_session`.  `tryParse` models
`Options::try_parse_from` (the clap argument schema of the worker binary,
declared outside this file's source); `freshId` models `Uuid::new_v4`;
`spawn` models the outcome of `Wrapper::start` (process creation).  The
result carries the returned value, the new registry state, and the number
of OS processes created. -/
def start_new_session (tryParse : List String → Except String Unit)
    (freshId : Nat) (spawn : Except String Wrapper) (st : State)
    (argv : List String) : Except String Nat × State × Nat :=
  match tryParse argv with
  | .error e => (.error e, st, 0)
  | .ok _ =>
    match spawn with
    | .error e => (.error e, st, 0)
    | .ok w => (.ok freshId, { sessions := st.sessions ++ [(freshId, w)] }, 1)

def notFoundMsg (id : Nat) : String := "session " ++ toString id ++ " not found"

/-- Embeds `State::stop_session`: looks the session up (taking `&self`, it
never mutates the registry or any session); an unknown id yields the
not-found error and no signal; otherwise it forwards to `Wrapper::stop`.
The returned triple is (result, registry state after the call, signals
dispatched). -/
def stop_session (kill : Nat → UnixSignal → Except String Unit) (st : State)
    (id : Nat) : Except String Unit × State × List (Nat × UnixSignal) :=
  match List.lookup id st.sessions with
  | none => (.error (notFoundMsg id), st, [])
  | some w =>
    let r := Wrapper.stop w kill
    (r.1, st, r.2)

/-- Embeds `State::get_session`. -/
def get_session (st : State) (id : Nat) : Option Wrapper :=
  List.lookup id st.sessions

/-- Embeds `State::active_sessions`. -/
def active_sessions (st : State) : List (Nat × Wrapper) :=
  st.sessions

/-! Helper lemmas shared by the claim theorems. -/

theorem mem_splitsDesc {cs p s : List Char} (h : (p, s) ∈ splitsDesc cs) :
    cs = p ++ s ∧ p ≠ [] ∧ s = cs.drop p.length := by
  obtain ⟨k, hk, heq⟩ := List.mem_map.mp h
  have hk2 : k < cs.length := List.mem_range.mp hk
  obtain ⟨hp, hs⟩ := Prod.mk.injEq .. ▸ heq
  have hlen : p.length = cs.length - k := by
    rw [← hp, List.length_take]
    exact Nat.min_eq_left (Nat.sub_le _ _)
  refine ⟨?_, ?_, ?_⟩
  · rw [← hp, ← hs, List.take_append_drop]
  · intro habs
    rcases List.take_eq_nil_iff.mp (hp ▸ habs) with h0 | h0
    · omega
    · rw [h0] at hk2; simp at hk2
  · rw [hlen, ← hs]

theorem stripLit_eq_some : ∀ {lit cs r : List Char},
    stripLit lit cs = some r → cs = lit ++ r
  | [], cs, r, h => by
      simp only [stripLit, Option.some.injEq] at h
      simp [h]
  | l :: ls, [], r, h => by simp [stripLit] at h
  | l :: ls, c :: cs, r, h => by
      simp only [stripLit] at h
      split at h
      · next heq =>
          have := stripLit_eq_some h
          simp [heq, this]
      · exact absurd h (by simp)

theorem mem_dropWhile_of_mem {p : Char → Bool} {l : List Char} {c : Char}
    (hc : c ∈ l) (hp : p c = false) : c ∈ l.dropWhile p := by
  have hsplit := List.takeWhile_append_dropWhile p (l := l)
  rw [← hsplit] at hc
  rcases List.mem_append.mp hc with h | h
  · have := List.mem_takeWhile_imp h
    rw [hp] at this
    cases this
  · exact h

theorem trim_isEmpty_eq_false {cs : List Char} {c : Char}
    (hc : c ∈ cs) (hw : isWs c = false) : (trim cs).isEmpty = false := by
  have h1 : c ∈ cs.dropWhile isWs := mem_dropWhile_of_mem hc hw
  have h2 : c ∈ (cs.dropWhile isWs).reverse := List.mem_reverse.mpr h1
  have h3 : c ∈ ((cs.dropWhile isWs).reverse.dropWhile isWs) :=
    mem_dropWhile_of_mem h2 hw
  have h4 : c ∈ trim cs := List.mem_reverse.mpr h3
  exact List.isEmpty_eq_false.mpr (List.ne_nil_of_mem h4)

theorem statsCaptures_trim {cs : List Char} {caps : RawStats}
    (h : statsCaptures cs = some caps) : (trim cs).isEmpty = false := by
  obtain ⟨⟨p, s⟩, hmem, hf⟩ := List.exists_of_findSome?_eq_some h
  obtain ⟨hcat, hpne, hdrop⟩ := mem_splitsDesc hmem
  have hstrip : ∃ r, stripLit tasksTok s = some r := by
    by_cases hdot : p.all isDot
    · rw [if_pos hdot] at hf
      cases hst : stripLit tasksTok s with
      | none => rw [hst] at hf; cases hf
      | some r => exact ⟨r, rfl⟩
    · rw [if_neg hdot] at hf; cases hf
  obtain ⟨r, hr⟩ := hstrip
  have hseq : s = tasksTok ++ r := stripLit_eq_some hr
  have htmem : 't' ∈ cs := by
    rw [hcat, hseq]
    simp [tasksTok]
  exact trim_isEmpty_eq_false htmem rfl

theorem processLineCore_stats (t : Telem) (cs : List Char) (v : Statistics)
    (hv : statsValue cs = some v) :
    processLineCore t cs = .ok { t with statistics := v } := by
  unfold statsValue at hv
  cases hcap : statsCaptures cs with
  | none => rw [hcap] at hv; cases hv
  | some caps =>
      rw [hcap] at hv
      change (parseStatsCaps caps).toOption = some v at hv
      cases hp : parseStatsCaps caps with
      | error e =>
          rw [hp] at hv
          simp [Except.toOption] at hv
      | ok v2 =>
          rw [hp] at hv
          simp only [Except.toOption, Option.some.injEq] at hv
          subst hv
          have ht := statsCaptures_trim hcap
          simp [processLineCore, ht, hcap, hp]

theorem processLineCore_panic (t : Telem) (cs : List Char) (caps : RawStats)
    (e : String) (h0 : (trim cs).isEmpty = false)
    (h1 : statsCaptures cs = some caps) (h2 : parseStatsCaps caps = .error e) :
    processLineCore t cs = .error e := by
  simp [processLineCore, h0, h1, h2]

theorem processLineCore_loot (t : Telem) (cs : List Char)
    (caps : List Char × List Char × Option (List Char) × List Char)
    (h0 : (trim cs).isEmpty = false) (h1 : statsCaptures cs = none)
    (h2 : lootCaptures cs = some caps) :
    processLineCore t cs =
      .ok { t with loot := t.loot ++
              [{ found_at := caps.1, plugin := caps.2.1,
                 target := caps.2.2.1, data := caps.2.2.2 }] } := by
  simp [processLineCore, h0, h1, h2]

theorem processLineCore_append (t t2 : Telem) (cs : List Char)
    (h : processLineCore t cs = .ok t2) :
    (∃ a, t2.loot = t.loot ++ a) ∧ (∃ b, t2.output = t.output ++ b) := by
  unfold processLineCore at h
  split at h
  · obtain rfl := Except.ok.inj h
    exact ⟨⟨[], by simp⟩, ⟨[], by simp⟩⟩
  · split at h
    · split at h
      · obtain rfl := Except.ok.inj h
        exact ⟨⟨[], by simp⟩, ⟨[], by simp⟩⟩
      · cases h
    · split at h
      · obtain rfl := Except.ok.inj h
        refine ⟨⟨_, rfl⟩, ⟨[], by simp⟩⟩
      · obtain rfl := Except.ok.inj h
        exact ⟨⟨[], by simp⟩, ⟨_, rfl⟩⟩

theorem reach_completed_waiterDone (s : Sess) (h : Reach s) :
    s.completed = none ∨ s.waiterDone = true := by
  induction h with
  | init => exact .inl rfl
  | step s s2 ev hr hs ih =>
      cases hs with
      | line tag cs t2 hp => exact ih
      | procExit r hw => exact .inr rfl

/-! Concrete inputs used by the claim theorems. -/

def c1line : List Char :=
  "x tasks=1 mem=a targets=2 attempts=3 done=4 (nope%) speed=5 reqs/s".data

def c1caps : RawStats :=
  { g1 := "1".data, g2 := "a".data, g3 := "2".data, g4 := "3".data,
    g5 := "4".data, g6 := "nope".data, g8 := none, g9 := "5".data }

def c2line : List Char :=
  "... tasks=5 mem=120MB targets=10 attempts=50 done=25 (50.0%) errors=2 speed=12.5 reqs/s".data

def c2caps : RawStats :=
  { g1 := "5".data, g2 := "120MB".data, g3 := "10".data, g4 := "50".data,
    g5 := "25".data, g6 := "50.0".data, g8 := some ("2".data), g9 := "12.5".data }

def c9line : List Char :=
  "... [2024-01-01T00:00:00] (sql-injection) <http://target> found admin:admin123".data

def c9loot : Loot :=
  { found_at := "2024-01-01T00:00:00".data, plugin := "sql-injection".data,
    target := some ("http://target".data), data := "found admin:admin123".data }

set_option maxRecDepth 100000

/-- C1: the claim states that classification never aborts processing — a
line that partially matches the statistics pattern but whose captured field
fails to parse is supposed to degrade to raw output, and the classifier is
supposed never to crash.  The code refutes this: on `c1line` the STATS
pattern matches with `done_percent` capture `nope`, whose parse fails, and
the source's `.parse().unwrap()` panics (modelled as the error outcome),
aborting the capture task instead of adding the line to raw output. -/
theorem claim1_unwrap_panics (t : Telem) :
    statsCaptures c1line = some c1caps ∧
    parseF32Q c1caps.g6 = none ∧
    processLineCore t c1line = .error errDonePercentMsg := by
  exact ⟨rfl, rfl, processLineCore_panic t c1line c1caps errDonePercentMsg rfl rfl rfl⟩

/-- C2: the claim states that the exact statistics line with
`speed=12.5 reqs/s` is classified as statistics and overwrites the session's
`Statistics`, with `reqs_per_sec` holding the value parsed from `12.5`.
The code refutes this: the STATS pattern does match (captures shown), but
`reqs_per_sec` is a `usize` and `"12.5".parse::<usize>()` fails, so the
source's `unwrap()` panics (modelled as the error outcome) and the promised
overwrite never completes. -/
theorem claim2_speed_float_panics (t : Telem) :
    statsCaptures c2line = some c2caps ∧
    parseUsize c2caps.g9 = none ∧
    processLineCore t c2line = .error errReqsPerSecMsg := by
  exact ⟨rfl, rfl, processLineCore_panic t c2line c2caps errReqsPerSecMsg rfl rfl rfl⟩

/-- C9: processing the exact finding line appends exactly one `Loot` with
`found_at = 2024-01-01T00:00:00`, `plugin = sql-injection`,
`target = Some(http://target)` and `data = found admin:admin123`, increasing
the findings list length by exactly one and leaving the statistics and the
raw output unchanged, whatever the prior telemetry state. -/
theorem claim9_finding_appended (t : Telem) :
    processLineCore t c9line = .ok { t with loot := t.loot ++ [c9loot] } ∧
    (t.loot ++ [c9loot]).length = t.loot.length + 1 ∧
    ({ t with loot := t.loot ++ [c9loot] } : Telem).statistics = t.statistics ∧
    ({ t with loot := t.loot ++ [c9loot] } : Telem).output = t.output := by
  refine ⟨?_, by simp, rfl, rfl⟩
  exact processLineCore_loot t c9line
    ("2024-01-01T00:00:00".data, "sql-injection".data,
     some ("http://target".data), "found admin:admin123".data) rfl rfl rfl

def c3line : List Char := "x [t1] (p2) d3".data

def c3loot : Loot :=
  { found_at := "t1".data, plugin := "p2".data, target := none, data := "d3".data }

def c3s1 : Sess :=
  { telem := telemInit, completed := some (Completion.with_status 0), waiterDone := true }

def c3s2 : Sess :=
  { telem := { statistics := statsDefault, loot := [c3loot], output := [] },
    completed := some (Completion.with_status 0), waiterDone := true }

/-- C3, counterexample: the claim states that once the completion record is
set, no further element is ever appended to findings or raw output.  In the
code the capture loops never consult `completed`, so a line still buffered
in a pipe is classified after completion is recorded: from the reachable
state `c3s1` (completion already set) a step processing the finding line
`c3line` appends to the findings list. -/
theorem claim3_counterexample :
    Reach c3s1 ∧ c3s1.completed = some (Completion.with_status 0) ∧
    Step c3s1 (.line .stdout c3line) c3s2 ∧
    c3s2.telem.loot.length = c3s1.telem.loot.length + 1 := by
  refine ⟨?_, rfl, ?_, rfl⟩
  · exact Reach.step sessInit c3s1 (.procExit (.exited (some 0))) Reach.init
      (Step.procExit sessInit (.exited (some 0)) rfl)
  · exact Step.line c3s1 .stdout c3line c3s2.telem rfl

/-- C3, amended: the findings and raw-output lists are append-only — every
step of a session leaves the previous contents as a prefix and only ever
appends — but the completion record being set does not freeze them: a line
buffered in a pipe may still be classified (and appended) after completion
is recorded, as `claim3_counterexample` shows. -/
theorem claim3_append_only (s s2 : Sess) (ev : Ev) (h : Step s ev s2) :
    (∃ a, s2.telem.loot = s.telem.loot ++ a) ∧
    (∃ b, s2.telem.output = s.telem.output ++ b) := by
  cases h with
  | line tag cs t2 hp => exact processLineCore_append s.telem t2 cs hp
  | procExit r hw => exact ⟨⟨[], by simp⟩, ⟨[], by simp⟩⟩

/-- C3, witness for the amended theorem: the counterexample step itself only
appends to the findings and raw-output lists. -/
theorem claim3_append_only_witness :
    (∃ a, c3s2.telem.loot = c3s1.telem.loot ++ a) ∧
    (∃ b, c3s2.telem.output = c3s1.telem.output ++ b) := by
  exact claim3_append_only c3s1 c3s2 (.line .stdout c3line)
    (Step.line c3s1 .stdout c3line c3s2.telem rfl)

/-- C4: once the completion record is present it is immutable — every step
from a reachable state preserves an already-set `Completion`, so the record
transitions from absent to present at most once (the single waiter task,
whose body runs once, is the only writer) and is never overwritten by a
repeated or concurrent observation of process exit. -/
theorem claim4_completion_write_once (s s2 : Sess) (ev : Ev) (c : Completion)
    (hr : Reach s) (hs : Step s ev s2) (hc : s.completed = some c) :
    s2.completed = some c := by
  cases hs with
  | line tag cs t2 hp => exact hc
  | procExit r hw =>
      rcases reach_completed_waiterDone s hr with h | h
      · rw [h] at hc; cases hc
      · rw [h] at hw; cases hw

def c4s1 : Sess :=
  { telem := telemInit, completed := some (Completion.with_status 0), waiterDone := true }

def c4s2 : Sess :=
  { telem := { statistics := statsDefault, loot := [], output := ["hello".data] },
    completed := some (Completion.with_status 0), waiterDone := true }

/-- C4, witness: after the waiter records exit code 0, a further raw-output
line step leaves the completion record untouched. -/
theorem claim4_completion_write_once_witness :
    c4s2.completed = some (Completion.with_status 0) := by
  exact claim4_completion_write_once c4s1 c4s2 (.line .stdout ("hello".data))
    (Completion.with_status 0)
    (Reach.step sessInit c4s1 (.procExit (.exited (some 0))) Reach.init
      (Step.procExit sessInit (.exited (some 0)) rfl))
    (Step.line c4s1 .stdout ("hello".data) c4s2.telem rfl)
    rfl

/-- C5: the completion waiter records `{exit_code := 0, error := none}` on a
normal exit with code 0; a wait failure records
`{exit_code := -1, error := some msg}`; the error field is absent on every
exit-observation path (so it is present only on the wait-failure path); and
-1 is substituted whenever the numeric exit code is unavailable. -/
theorem claim5_completion_shape :
    completionOf (.exited (some 0)) = { exit_code := 0, error := none } ∧
    (∀ m : String, completionOf (.waitErr m) = { exit_code := -1, error := some m }) ∧
    (∀ code : Option Int, (completionOf (.exited code)).error = none) ∧
    (completionOf (.exited none)).exit_code = -1 ∧
    (∀ m : String, (completionOf (.waitErr m)).exit_code = -1) := by
  exact ⟨rfl, fun m => rfl, fun code => rfl, rfl, fun m => rfl⟩

/-- C6: when argv fails the worker's argument-schema validation (modelled by
the `tryParse` parameter, the clap `Options::try_parse_from` call declared
outside this source file), `start_new_session` returns the validation error
before anything else happens: no OS process is created (the spawn outcome
is never consulted, process count 0), no session is inserted, and the
registry is returned unchanged, so its session count is unchanged. -/
theorem claim6_invalid_argv_no_spawn (tryParse : List String → Except String Unit)
    (freshId : Nat) (spawn : Except String Wrapper) (st : State)
    (argv : List String) (e : String) (h : tryParse argv = .error e) :
    start_new_session tryParse freshId spawn st argv = (.error e, st, 0) ∧
    (start_new_session tryParse freshId spawn st argv).2.1.sessions.length =
      st.sessions.length := by
  constructor
  · simp [start_new_session, h]
  · simp [start_new_session, h]

def c6errMsg : String := "error: invalid arguments"

def c6tryParse : List String → Except String Unit := fun _ => Except.error c6errMsg

/-- C6, witness: a validator rejecting every argv makes `start_new_session`
fail on a concrete argv with the registry untouched and no process
created. -/
theorem claim6_invalid_argv_no_spawn_witness :
    c6tryParse ["legba", "--oops"] = .error c6errMsg ∧
    start_new_session c6tryParse 1 (.error c6errMsg) State.new ["legba", "--oops"] =
      (.error c6errMsg, State.new, 0) := by
  exact ⟨rfl,
    (claim6_invalid_argv_no_spawn c6tryParse 1 (.error c6errMsg) State.new
      ["legba", "--oops"] c6errMsg rfl).1⟩

/-- C7: `stop_session` on an identifier absent from the registry fails with
the not-found error, dispatches no signal and leaves the registry (and with
it every session's state) unchanged; on a present identifier it dispatches
exactly one SIGTERM to the recorded process id and returns the signal
dispatch outcome — the result depends only on signal delivery, never on
process exit, so the call does not wait for the process to exit. -/
theorem claim7_stop_semantics (kill : Nat → UnixSignal → Except String Unit)
    (st : State) (id : Nat) :
    (List.lookup id st.sessions = none →
      stop_session kill st id = (.error (notFoundMsg id), st, [])) ∧
    (∀ w : Wrapper, List.lookup id st.sessions = some w →
      stop_session kill st id =
        (kill w.process_id .SIGTERM, st, [(w.process_id, .SIGTERM)])) := by
  constructor
  · intro h
    simp [stop_session, h]
  · intro w h
    simp [stop_session, h, Wrapper.stop]

def c7client : String := "client-a"

def c7wrapper : Wrapper :=
  { session_id := 1, process_id := 77, client := c7client, argv := [] }

def c7state : State := { sessions := [(1, c7wrapper)] }

def c7kill : Nat → UnixSignal → Except String Unit := fun _ _ => Except.ok ()

/-- C7, witness: in a registry holding session 1 (process 77), stopping the
unknown session 2 fails with not-found and no state change, and stopping
session 1 dispatches SIGTERM to process 77. -/
theorem claim7_stop_semantics_witness :
    List.lookup 2 c7state.sessions = none ∧
    stop_session c7kill c7state 2 = (.error (notFoundMsg 2), c7state, []) ∧
    List.lookup 1 c7state.sessions = some c7wrapper ∧
    stop_session c7kill c7state 1 = (.ok (), c7state, [(77, .SIGTERM)]) := by
  refine ⟨rfl, (claim7_stop_semantics c7kill c7state 2).1 rfl, rfl, ?_⟩
  exact (claim7_stop_semantics c7kill c7state 1).2 c7wrapper rfl

/-- C8: when two consecutive statistics lines of one stream are processed
(each fully matching and parsing), the resulting telemetry carries exactly
the statistics captured from the second line alone — every field is
overwritten and nothing is accumulated: the result does not depend on the
first line's values nor on the prior statistics. -/
theorem claim8_second_line_wins (t res : Telem) (l1 l2 : List Char)
    (v1 v2 : Statistics) (h1 : statsValue l1 = some v1)
    (h2 : statsValue l2 = some v2)
    (hp : pipe_reader_to_writer t [l1, l2] = .ok res) :
    res = { t with statistics := v2 } ∧ res.statistics = v2 := by
  have e1 := processLineCore_stats t l1 v1 h1
  have e2 := processLineCore_stats { t with statistics := v1 } l2 v2 h2
  have hval : pipe_reader_to_writer t [l1, l2] = .ok { t with statistics := v2 } := by
    simp [pipe_reader_to_writer, e1, e2]
  rw [hval] at hp
  obtain rfl := Except.ok.inj hp
  exact ⟨rfl, rfl⟩

def c8l1 : List Char :=
  "x tasks=1 mem=a targets=2 attempts=3 done=4 (5%) errors=6 speed=7 reqs/s".data

def c8l2 : List Char :=
  "y tasks=11 mem=b targets=12 attempts=13 done=14 (15%) speed=17 reqs/s".data

def c8v1 : Statistics :=
  { tasks := 1, memory := "a".data, targets := 2, attempts := 3,
    errors := 6, done := 4, done_percent := 5, reqs_per_sec := 7 }

def c8v2 : Statistics :=
  { tasks := 11, memory := "b".data, targets := 12, attempts := 13,
    errors := 0, done := 14, done_percent := 15, reqs_per_sec := 17 }

def c8res : Telem := { statistics := c8v2, loot := [], output := [] }

/-- C8, witness: two concrete consecutive statistics lines leave exactly the
second line's values (note `errors` drops from 6 back to the default 0 of
the second line, not an accumulated value). -/
theorem claim8_second_line_wins_witness :
    statsValue c8l1 = some c8v1 ∧ statsValue c8l2 = some c8v2 ∧
    pipe_reader_to_writer telemInit [c8l1, c8l2] = .ok c8res ∧
    c8res.statistics = c8v2 := by
  refine ⟨rfl, rfl, rfl, ?_⟩
  exact (claim8_second_line_wins telemInit c8res c8l1 c8l2 c8v1 c8v2 rfl rfl rfl).2

def c10badLine : List Char :=
  "tasks=9 tasks=5 mem=120MB targets=10 attempts=50 done=25 (50.0%) errors=2 speed=12 reqs/s".data

def c10stats : Statistics :=
  { tasks := 5, memory := "120MB".data, targets := 10, attempts := 50,
    errors := 2, done := 25, done_percent := 50, reqs_per_sec := 12 }

/-- C10, counterexample: the claim states that a line beginning with
`tasks=` at column 0 is never classified as a statistics line even when the
rest of the line matches the grammar.  `c10badLine` begins with `tasks=` at
column 0, yet the anchored `^.+` of the STATS pattern matches its first
eight characters and the pattern matches at the second `tasks=` occurrence,
so the line is classified as statistics (with `tasks = 5`, from the second
occurrence) rather than falling through to raw output. -/
theorem claim10_counterexample :
    (stripLit tasksTok c10badLine).isSome = true ∧
    processLineCore telemInit c10badLine =
      .ok { statistics := c10stats, loot := [], output := [] } := by
  exact ⟨rfl, rfl⟩

/-- C10, amended: both classification patterns require at least one
character before the **matched occurrence** of their first token, so a line
in which `tasks=` occurs nowhere after column 0 never matches the
statistics pattern, and a line in which `[` occurs nowhere after column 0
never matches the finding pattern — in particular a line consisting of the
bare grammar starting at column 0 falls through.  (A line beginning with
the token at column 0 can still match via a later occurrence of the token,
as `claim10_counterexample` shows.) -/
theorem claim10_no_prefix_no_match (cs : List Char)
    (h1 : ∀ i, i < cs.length → 0 < i → stripLit tasksTok (cs.drop i) = none)
    (h2 : ∀ i, i < cs.length → 0 < i → stripLit openBracketTok (cs.drop i) = none) :
    statsCaptures cs = none ∧ lootCaptures cs = none := by
  constructor
  · apply List.findSome?_eq_none_iff.mpr
    rintro ⟨p, s⟩ hmem
    obtain ⟨hcat, hpne, hdrop⟩ := mem_splitsDesc hmem
    have hnone : stripLit tasksTok s = none := by
      by_cases hlt : p.length < cs.length
      · have := h1 p.length hlt (List.length_pos.mpr hpne)
        rw [← hdrop] at this
        exact this
      · have hle : cs.length ≤ p.length := Nat.le_of_not_lt hlt
        have hs : s = [] := by rw [hdrop]; exact List.drop_eq_nil_of_le hle
        rw [hs]
        rfl
    cases hdot : p.all isDot with
    | false => simp [hdot]
    | true => simp [hdot, hnone]
  · apply List.findSome?_eq_none_iff.mpr
    rintro ⟨p, s⟩ hmem
    obtain ⟨hcat, hpne, hdrop⟩ := mem_splitsDesc hmem
    have hnone : stripLit openBracketTok s = none := by
      by_cases hlt : p.length < cs.length
      · have := h2 p.length hlt (List.length_pos.mpr hpne)
        rw [← hdrop] at this
        exact this
      · have hle : cs.length ≤ p.length := Nat.le_of_not_lt hlt
        have hs : s = [] := by rw [hdrop]; exact List.drop_eq_nil_of_le hle
        rw [hs]
        rfl
    cases hdot : p.all isDot with
    | false => simp [hdot]
    | true => simp [hdot, hnone]

def c10okLine : List Char :=
  "tasks=1 mem=a targets=2 attempts=3 done=4 (5%) speed=6 reqs/s".data

/-- C10, witness for the amended theorem: a line that is the bare statistics
grammar starting at column 0 (its only `tasks=` at position 0 and no `[` at
all) matches neither pattern. -/
theorem claim10_no_prefix_no_match_witness :
    (∀ i, i < c10okLine.length → 0 < i → stripLit tasksTok (c10okLine.drop i) = none) ∧
    (∀ i, i < c10okLine.length → 0 < i → stripLit openBracketTok (c10okLine.drop i) = none) ∧
    statsCaptures c10okLine = none ∧ lootCaptures c10okLine = none := by
  have h1 : ∀ i, i < c10okLine.length → 0 < i →
      stripLit tasksTok (c10okLine.drop i) = none := by decide
  have h2 : ∀ i, i < c10okLine.length → 0 < i →
      stripLit openBracketTok (c10okLine.drop i) = none := by decide
  exact ⟨h1, h2, claim10_no_prefix_no_match c10okLine h1 h2⟩

end Legba
